import Mathlib

/-!
Verification of the Light_Sensor duty-cycle controller (src/app.py, src/main.py,
src/config.py) against its natural-language specification.

Shallow embedding conventions:
* The backup-RAM keyed store (`BackupDict`) is modelled as an association list
  `BackupRam`; `set` prepends and `get` returns the first binding, which matches
  dictionary read-your-last-write semantics.  `reset` empties the store.
* Phase ordinals (`DeviceState`) are plain naturals: `LUX_SAMPLING = 0`,
  `ALL_SAMPLING = 1`.
* Sensor readings and log entries are opaque payloads modelled as `Nat`; the
  program never computes with them, it only moves them around.
* Python code that raises is modelled with `Option`/`Except`: `None`/`.none`
  marks an uncaught `KeyError`/`IndexError`, `Except.error` a raised exception.
* External collaborators (network, power board, home-assistant device) enter the
  model only through the values they return at the call sites in src/.
-/

namespace LightSensor

/-- `DeviceState.LUX_SAMPLING` ordinal (app.py line 59). -/
def LUX_SAMPLING : Nat := 0

/-- `DeviceState.ALL_SAMPLING` ordinal (app.py line 60). -/
def ALL_SAMPLING : Nat := 1

/-- The fixed key of the Phase Record, `BACKUP_NAME_STATE = "state"` (app.py line 35). -/
def BACKUP_NAME_STATE : String := "state"

/-- Membership in the defined phase set `{LUX_SAMPLING, ALL_SAMPLING}`. -/
def definedPhase (v : Nat) : Prop := v = LUX_SAMPLING ∨ v = ALL_SAMPLING

instance (v : Nat) : Decidable (definedPhase v) := by
  unfold definedPhase; infer_instance

/-- The keyed area of backup RAM (`BackupDict`): an association list of
string keys to stored values. -/
abbrev BackupRam := List (String × Nat)

/-- `backup_ram[key]` read: first binding wins (a dict has one binding per key;
`set` below removes no stale binding but `get` only ever sees the newest). -/
def BackupRam.get (ram : BackupRam) (k : String) : Option Nat :=
  (ram.find? (fun p => p.1 == k)).map Prod.snd

/-- `backup_ram[key] = v` write. -/
def BackupRam.set (ram : BackupRam) (k : String) (v : Nat) : BackupRam :=
  (k, v) :: ram

/-- `backup_ram.reset()`: wipes the keyed area. -/
def BackupRam.reset : BackupRam := []

/-- `backup_ram_init` (app.py lines 115-119): reset the store, then write the
first phase ordinal under the Phase Record key. -/
def backup_ram_init (_ram : BackupRam) : BackupRam :=
  BackupRam.set BackupRam.reset BACKUP_NAME_STATE LUX_SAMPLING

/-- `backup_ram_is_valid` (app.py lines 122-131): returns `False` exactly when
reading the Phase Record key raises `KeyError`, i.e. the check is key presence
and nothing else. -/
def backup_ram_is_valid (ram : BackupRam) : Bool :=
  (ram.get BACKUP_NAME_STATE).isSome

/-- Modelled from the spec (for comparison with `backup_ram_is_valid` only):
"the store is considered valid iff the Phase Record key is present and decodes
to a defined phase ordinal". -/
def backup_ram_is_valid_specversion (ram : BackupRam) : Bool :=
  match ram.get BACKUP_NAME_STATE with
  | some v => v == LUX_SAMPLING || v == ALL_SAMPLING
  | none => false

/-- The boot-time backup-RAM dispatch in `main` (app.py lines 203-206):
cold boot always reinitializes; a warm boot reinitializes only when the
validity check fails. -/
def boot_ram (first_boot : Bool) (ram : BackupRam) : BackupRam :=
  if first_boot then backup_ram_init ram
  else if !(backup_ram_is_valid ram) then backup_ram_init ram
  else ram

/-- In-memory fields of a `StateLux` phase object (app.py lines 84-96). -/
structure StateLuxObj where
  total_iterations : Nat
  iteration : Nat
deriving DecidableEq, Repr

/-- `StateLux.__init__`: the countdown starts at `total_iterations`
(app.py lines 86-96). -/
def StateLux.init (total_iterations : Nat) : StateLuxObj :=
  { total_iterations := total_iterations, iteration := total_iterations }

/-- State effect of `StateLux.entry` (app.py lines 98-106): reads and publishes
(external effects, no backup-RAM access), then decrements the countdown if it is
positive. -/
def StateLux.entry (l : StateLuxObj) : StateLuxObj :=
  if l.iteration > 0 then { l with iteration := l.iteration - 1 } else l

/-- `StateLux.exit` (app.py lines 108-112): when the countdown has reached zero,
restore it to `total_iterations` and write `ALL_SAMPLING` into the Phase Record;
otherwise touch nothing.  The third component records the `(key, value)` pairs
written to backup RAM during the call. -/
def StateLux.exit (l : StateLuxObj) (ram : BackupRam) :
    StateLuxObj × BackupRam × List (String × Nat) :=
  if l.iteration = 0 then
    ({ l with iteration := l.total_iterations },
     ram.set BACKUP_NAME_STATE ALL_SAMPLING,
     [(BACKUP_NAME_STATE, ALL_SAMPLING)])
  else (l, ram, [])

/-- `StateAll.exit` (app.py lines 79-81): unconditionally write `LUX_SAMPLING`
into the Phase Record.  (`StateAll.entry`, app.py lines 72-77, only reads and
publishes sensors: no backup-RAM access and no in-memory machine state.) -/
def StateAll.exit (ram : BackupRam) : BackupRam × List (String × Nat) :=
  (ram.set BACKUP_NAME_STATE LUX_SAMPLING, [(BACKUP_NAME_STATE, LUX_SAMPLING)])

/-- Machine state carried across loop iterations inside one boot: the backup
RAM plus the single `StateLux` object held in `state_table` (app.py
lines 275-278; the `StateAll` object has no mutable fields). -/
structure Sys where
  ram : BackupRam
  lux : StateLuxObj
deriving DecidableEq, Repr

/-- One state-machine cycle from the main loop body (app.py lines 285-289):
read `state_id` from the Phase Record (a missing key raises, modelled `none`),
index `state_table` with it (an out-of-range ordinal raises, modelled `none`),
then run that phase object's `entry()` followed by its `exit()`.  Returns the
new machine state together with the list of backup-RAM writes performed. -/
def run_one_cycle (s : Sys) : Option (Sys × List (String × Nat)) :=
  match s.ram.get BACKUP_NAME_STATE with
  | none => none
  | some state_id =>
    if state_id = LUX_SAMPLING then
      let l1 := StateLux.entry s.lux
      let (l2, ram2, ws) := StateLux.exit l1 s.ram
      some ({ ram := ram2, lux := l2 }, ws)
    else if state_id = ALL_SAMPLING then
      let (ram2, ws) := StateAll.exit s.ram
      some ({ s with ram := ram2 }, ws)
    else none

/-- Run `n` consecutive cycles, propagating a raised exception as `none`. -/
def run_cycles (s : Sys) : Nat → Option Sys
  | 0 => some s
  | n + 1 =>
    match run_one_cycle s with
    | none => none
    | some (s', _) => run_cycles s' n

/-- Machine state right after a cold boot: `backup_ram_init` has run
(app.py lines 203-204) and `state_table` holds a fresh
`StateLux(_, _, config["lux_cycles"])` (app.py line 276). -/
def cold_boot (lux_cycles : Nat) : Sys :=
  { ram := boot_ram true BackupRam.reset, lux := StateLux.init lux_cycles }

/-- Machine state after a warm boot over surviving backup RAM `ram`
(app.py lines 203-206): the store is reinitialized only if invalid, and the
`StateLux` object is constructed fresh with countdown `lux_cycles`. -/
def warm_boot (ram : BackupRam) (lux_cycles : Nat) : Sys :=
  { ram := boot_ram false ram, lux := StateLux.init lux_cycles }

/-- The phase ordinal the `k`-th loop iteration (1-based) executes: the
`state_id` read at the top of that iteration (app.py line 285). -/
def phase_of_cycle (s₀ : Sys) (k : Nat) : Option Nat :=
  (run_cycles s₀ (k - 1)).bind (fun s => s.ram.get BACKUP_NAME_STATE)

/-! ### Diagnostic buffer (`BackupList`, app.py lines 49-55 and 291-296) -/

/-- The append-only diagnostic buffer area; entries are opaque payloads. -/
abbrev LogBuffer := List Nat

/-- `backup_logs.copy()`: an atomic snapshot of the current contents. -/
def BackupList.copy (b : LogBuffer) : LogBuffer := b

/-- `backup_logs.clear()`: empties the buffer, whatever it held. -/
def BackupList.clear (_b : LogBuffer) : LogBuffer := []

/-- A handler appending one record to the buffer. -/
def BackupList.append (b : LogBuffer) (e : Nat) : LogBuffer := b ++ [e]

/-- Append a list of records in order. -/
def BackupList.append_all (b : LogBuffer) (es : List Nat) : LogBuffer :=
  es.foldl BackupList.append b

/-- The flush sequence of the main loop (app.py lines 294-295), with one entry
`e` interleaved between the snapshot and the clear — the situation the
diagnostic-flush-atomicity claim quantifies over.  Returns the just-taken
snapshot and the buffer contents after `clear()`. -/
def flush_with_race (b : LogBuffer) (e : Nat) : LogBuffer × LogBuffer :=
  let snapshot := BackupList.copy b
  let b1 := BackupList.append b e
  let b2 := BackupList.clear b1
  (snapshot, b2)

/-- Buffer operations occurring between flushes of the main loop: a log call
appends a record; a flush (app.py lines 294-295) snapshots and clears. -/
inductive LogOp where
  | append (e : Nat)
  | flush
deriving DecidableEq, Repr

/-- Run a sequence of buffer operations, collecting every snapshot a flush
hands to `publish_logs`. -/
def run_log_ops : LogBuffer → List LogOp → LogBuffer × List LogBuffer
  | b, [] => (b, [])
  | b, LogOp.append e :: ops => run_log_ops (BackupList.append b e) ops
  | b, LogOp.flush :: ops =>
    let snapshot := BackupList.copy b
    let b' := BackupList.clear b
    let (bf, snaps) := run_log_ops b' ops
    (bf, snapshot :: snaps)

/-- The records appended by a sequence of buffer operations. -/
def appended_entries (ops : List LogOp) : List Nat :=
  ops.filterMap (fun op => match op with | .append e => some e | .flush => none)

/-- Module-level initialization (app.py lines 49-55): when `log_to_buffer` is
enabled, `backup_logs.clear()` runs at import time, on every boot, before
`main` is entered; otherwise the buffer object is not even created and the
persisted area is untouched. -/
def module_init_logs (log_to_buffer : Bool) (persisted : LogBuffer) : LogBuffer :=
  if log_to_buffer then BackupList.clear persisted else persisted

/-! ### Network scan block (app.py lines 219-225) -/

/-- The distinguished scan-failure condition (`ScanError`). -/
inductive ScanError where
  | scanFailed
deriving DecidableEq, Repr

/-- The `try/except ScanError/else` block around `net.scan()` (app.py lines
219-225): on the distinguished failure the exception is logged and nothing is
written; on success the discovered channel is stored under key `"pc"`. -/
def after_scan (ram : BackupRam) (scan_result : Except ScanError Nat) : BackupRam :=
  match scan_result with
  | .error _ => ram
  | .ok peer_channel => ram.set "pc" peer_channel

/-! ### Battery-gauge read wrappers (app.py lines 232-252) -/

/-- The exception types the three battery wrappers catch:
`powerfeather.BatteryError` and `fg.FuelGaugeError`. -/
inductive GaugeError where
  | batteryError
  | fuelGaugeError
deriving DecidableEq, Repr

/-- `batt_volt_read` (app.py lines 232-238): starts with `val = None`, tries
`pf.batt_voltage()`, swallows `BatteryError`/`FuelGaugeError`, returns `val`. -/
def batt_volt_read (batt_voltage : Except GaugeError Nat) : Option Nat :=
  match batt_voltage with
  | .ok val => some val
  | .error _ => none

/-- `batt_charge_read` (app.py lines 239-245), same shape over `pf.batt_charge()`. -/
def batt_charge_read (batt_charge : Except GaugeError Nat) : Option Nat :=
  match batt_charge with
  | .ok val => some val
  | .error _ => none

/-- `batt_time_left_read` (app.py lines 246-252), same shape over
`pf.batt_time_left()`. -/
def batt_time_left_read (batt_time_left : Except GaugeError Nat) : Option Nat :=
  match batt_time_left with
  | .ok val => some val
  | .error _ => none

/-- A failure surfaced by a device read call inside a phase's `entry()`. -/
inductive ReadError where
  | sensorFault
deriving DecidableEq, Repr

/-- Exception flow of `StateLux.entry` (app.py lines 98-106): the body calls
`self.ha_device.read(self.ha_sensor)` with no `try`/`except`, so a failure of
that call leaves `entry()` by unwinding; only on success does the countdown
update run. -/
def StateLux.entry_result (device_read : Except ReadError Unit) (l : StateLuxObj) :
    Except ReadError StateLuxObj :=
  match device_read with
  | .error e => .error e
  | .ok _ => .ok (StateLux.entry l)

/-! ### Soft reset and the top-level handler (app.py lines 155-174, main.py) -/

/-- Exceptions that can reach the module-level `except` in main.py: the
`RuntimeError` raised by `app.reset()` (an intentional soft-reset request,
app.py lines 155-174), or any other fault escaping `main()`. -/
inductive TopLevelExc where
  | resetRequest (msg : String)
  | otherFault
deriving DecidableEq, Repr

/-- `reset(msg)` (app.py lines 155-174) never returns: it always raises a
`RuntimeError` carrying the message, to be caught by main.py. -/
def reset_model (msg : String) : Except TopLevelExc Unit :=
  .error (.resetRequest msg)

/-- What the handler in main.py ends in. -/
inductive HandlerOutcome where
  | blinkLoop
  | hardReset
deriving DecidableEq, Repr

/-- The branch at main.py lines 37-44, after the trace has been logged: with
the debug flag set the device enters the indefinite LED blink loop, otherwise
it issues `machine.reset()`.  The caught exception is not consulted. -/
def top_level_handler (debug : Bool) (_exc : TopLevelExc) : HandlerOutcome :=
  if debug then .blinkLoop else .hardReset

/-- The module-level `try/except` of main.py (lines 4-44): a normal return
from `main()` reaches no handler; any exception is funnelled into
`top_level_handler`. -/
def main_py (debug : Bool) (main_result : Except TopLevelExc Unit) :
    Option HandlerOutcome :=
  match main_result with
  | .ok _ => none
  | .error exc => some (top_level_handler debug exc)

/-! ### Helper lemmas about the slot store and the cycle trace -/

lemma BackupRam.get_set_same (ram : BackupRam) (k : String) (v : Nat) :
    (ram.set k v).get k = some v := by
  simp [BackupRam.get, BackupRam.set, List.find?]

lemma BackupRam.get_set_ne (ram : BackupRam) (k k' : String) (v : Nat)
    (h : k' ≠ k) : (ram.set k v).get k' = ram.get k' := by
  have hkk : (k == k') = false := beq_eq_false_iff_ne.mpr (Ne.symm h)
  simp [BackupRam.get, BackupRam.set, List.find?, hkk]

/-- The machine is in the narrow-sampling phase with countdown `i` and
configured cycle length `N`. -/
def atLux (s : Sys) (i N : Nat) : Prop :=
  s.ram.get BACKUP_NAME_STATE = some LUX_SAMPLING ∧
    s.lux.iteration = i ∧ s.lux.total_iterations = N

/-- The machine is in the broad-sampling phase; the narrow countdown has just
been restored to `N`. -/
def atAll (s : Sys) (N : Nat) : Prop :=
  s.ram.get BACKUP_NAME_STATE = some ALL_SAMPLING ∧
    s.lux.iteration = N ∧ s.lux.total_iterations = N

lemma StateLux.entry_pos {l : StateLuxObj} (h : 0 < l.iteration) :
    StateLux.entry l =
      { total_iterations := l.total_iterations, iteration := l.iteration - 1 } := by
  rw [StateLux.entry, if_pos h]

lemma run_one_cycle_lux_decr {s : Sys} {i N : Nat} (h : atLux s i N)
    (hi : 1 < i) :
    run_one_cycle s =
      some ({ ram := s.ram, lux := { total_iterations := N, iteration := i - 1 } }, []) ∧
      atLux { ram := s.ram, lux := { total_iterations := N, iteration := i - 1 } }
        (i - 1) N := by
  obtain ⟨hget, hit, htot⟩ := h
  have hpos : 0 < s.lux.iteration := by omega
  have hentry : StateLux.entry s.lux =
      { total_iterations := N, iteration := i - 1 } := by
    rw [StateLux.entry_pos hpos, hit, htot]
  have hexit : StateLux.exit { total_iterations := N, iteration := i - 1 } s.ram =
      ({ total_iterations := N, iteration := i - 1 }, s.ram, []) := by
    rw [StateLux.exit, if_neg (by simp; omega)]
  refine ⟨?_, hget, rfl, rfl⟩
  simp only [run_one_cycle, hget, LUX_SAMPLING, if_pos rfl, hentry, hexit]
  simp

lemma run_one_cycle_lux_last {s : Sys} {N : Nat} (h : atLux s 1 N) :
    run_one_cycle s =
      some ({ ram := s.ram.set BACKUP_NAME_STATE ALL_SAMPLING,
              lux := { total_iterations := N, iteration := N } },
            [(BACKUP_NAME_STATE, ALL_SAMPLING)]) ∧
      atAll { ram := s.ram.set BACKUP_NAME_STATE ALL_SAMPLING,
              lux := { total_iterations := N, iteration := N } } N := by
  obtain ⟨hget, hit, htot⟩ := h
  have hpos : 0 < s.lux.iteration := by omega
  have hentry : StateLux.entry s.lux =
      { total_iterations := N, iteration := 0 } := by
    rw [StateLux.entry_pos hpos, hit, htot]
  have hexit : StateLux.exit { total_iterations := N, iteration := 0 } s.ram =
      ({ total_iterations := N, iteration := N },
       s.ram.set BACKUP_NAME_STATE ALL_SAMPLING,
       [(BACKUP_NAME_STATE, ALL_SAMPLING)]) := by
    rw [StateLux.exit, if_pos rfl]
  refine ⟨?_, BackupRam.get_set_same _ _ _, rfl, rfl⟩
  simp only [run_one_cycle, hget, LUX_SAMPLING, if_pos rfl, hentry, hexit]
  simp

lemma run_one_cycle_all {s : Sys} {N : Nat} (h : atAll s N) :
    run_one_cycle s =
      some ({ ram := s.ram.set BACKUP_NAME_STATE LUX_SAMPLING, lux := s.lux },
            [(BACKUP_NAME_STATE, LUX_SAMPLING)]) ∧
      atLux { ram := s.ram.set BACKUP_NAME_STATE LUX_SAMPLING, lux := s.lux }
        N N := by
  obtain ⟨hget, hit, htot⟩ := h
  refine ⟨?_, BackupRam.get_set_same _ _ _, hit, htot⟩
  simp only [run_one_cycle, hget, LUX_SAMPLING, ALL_SAMPLING, StateAll.exit]
  norm_num

lemma run_cycles_add : ∀ (a : Nat) (s : Sys) (b : Nat),
    run_cycles s (a + b) = (run_cycles s a).bind (fun t => run_cycles t b)
  | 0, s, b => by simp [run_cycles]
  | a + 1, s, b => by
    have hab : (a + 1) + b = (a + b) + 1 := by omega
    rw [hab]
    cases h : run_one_cycle s with
    | none => simp [run_cycles, h]
    | some p => simp [run_cycles, h, run_cycles_add a p.1 b]

lemma run_cycles_one (s : Sys) :
    run_cycles s 1 = (run_one_cycle s).map Prod.fst := by
  cases h : run_one_cycle s with
  | none => simp [run_cycles, h]
  | some p => simp [run_cycles, h]

lemma run_cycles_succ_back (s : Sys) (n : Nat) :
    run_cycles s (n + 1) =
      (run_cycles s n).bind (fun t => (run_one_cycle t).map Prod.fst) := by
  rw [run_cycles_add n s 1]
  simp only [run_cycles_one]

/-- Inner block description: starting at the top of a narrow-sampling block
(countdown full), the next `N` cycles stay narrow with the countdown counting
down, cycle `N` flips the Phase Record to broad, and cycle `N + 1` flips it
back, landing at the top of the next narrow block. -/
lemma run_cycles_lux_block {N : Nat} (hN : 0 < N) {s : Sys}
    (h : atLux s N N) :
    (∀ k, k < N → ∃ t, run_cycles s k = some t ∧ atLux t (N - k) N) ∧
    (∃ t, run_cycles s N = some t ∧ atAll t N) ∧
    (∃ t, run_cycles s (N + 1) = some t ∧ atLux t N N) := by
  have part1 : ∀ k, k < N → ∃ t, run_cycles s k = some t ∧ atLux t (N - k) N := by
    intro k
    induction k with
    | zero => intro _; exact ⟨s, by simp [run_cycles], by simpa using h⟩
    | succ k ih =>
      intro hk
      obtain ⟨t, hrun, hat⟩ := ih (by omega)
      have hgt : 1 < N - k := by omega
      obtain ⟨hstep, hat'⟩ := run_one_cycle_lux_decr hat hgt
      have hsub : N - k - 1 = N - (k + 1) := by omega
      rw [hsub] at hat'
      refine ⟨_, ?_, hat'⟩
      rw [run_cycles_succ_back, hrun]
      simp [hstep, hsub]
  have part2 : ∃ t, run_cycles s N = some t ∧ atAll t N := by
    obtain ⟨t, hrun, hat⟩ := part1 (N - 1) (by omega)
    have h1 : N - (N - 1) = 1 := by omega
    rw [h1] at hat
    obtain ⟨hstep, hat'⟩ := run_one_cycle_lux_last hat
    have hNe : N = (N - 1) + 1 := by omega
    refine ⟨_, ?_, hat'⟩
    rw [hNe, run_cycles_succ_back, hrun]
    simp [hstep]
    omega
  refine ⟨part1, part2, ?_⟩
  obtain ⟨t, hrun, hat⟩ := part2
  obtain ⟨hstep, hat'⟩ := run_one_cycle_all hat
  refine ⟨_, ?_, hat'⟩
  rw [run_cycles_succ_back, hrun]
  simp [hstep]

lemma cold_boot_atLux (N : Nat) : atLux (cold_boot N) N N := by
  refine ⟨?_, rfl, rfl⟩
  simp [cold_boot, boot_ram, backup_ram_init, BackupRam.get_set_same]

/-- Every block start is reached: after `j * (N + 1)` cycles from a cold boot
the machine is back at the top of a narrow-sampling block. -/
lemma run_cycles_block_start {N : Nat} (hN : 0 < N) (j : Nat) :
    ∃ s, run_cycles (cold_boot N) (j * (N + 1)) = some s ∧ atLux s N N := by
  induction j with
  | zero => exact ⟨cold_boot N, by simp [run_cycles], cold_boot_atLux N⟩
  | succ j ih =>
    obtain ⟨s, hrun, hat⟩ := ih
    obtain ⟨-, -, t, hrun', hat'⟩ := run_cycles_lux_block hN hat
    refine ⟨t, ?_, hat'⟩
    have : (j + 1) * (N + 1) = j * (N + 1) + (N + 1) := by ring
    rw [this, run_cycles_add, hrun]
    simpa using hrun'

/-- Full-trace characterization: any state reached `m` cycles after a cold boot
is narrow-sampling with countdown `N - m % (N + 1)` (when `m % (N + 1) < N`) or
broad-sampling with the countdown already restored to `N` (when
`m % (N + 1) = N`). -/
lemma run_cycles_reachable {N : Nat} (hN : 0 < N) (m : Nat) {s : Sys}
    (h : run_cycles (cold_boot N) m = some s) :
    (m % (N + 1) < N ∧ atLux s (N - m % (N + 1)) N) ∨
    (m % (N + 1) = N ∧ atAll s N) := by
  obtain ⟨sj, hrunj, hatj⟩ := run_cycles_block_start hN (m / (N + 1))
  have hdecomp : m = (m / (N + 1)) * (N + 1) + m % (N + 1) := by
    rw [Nat.mul_comm]
    exact (Nat.div_add_mod m (N + 1)).symm
  have hrest : run_cycles sj (m % (N + 1)) = some s := by
    rw [hdecomp, run_cycles_add, hrunj] at h
    simpa using h
  have hrlt : m % (N + 1) < N + 1 := Nat.mod_lt _ (by omega)
  obtain ⟨p1, p2, -⟩ := run_cycles_lux_block hN hatj
  by_cases hr : m % (N + 1) < N
  · obtain ⟨t, hrun, hat⟩ := p1 _ hr
    rw [hrest] at hrun
    have hst : s = t := Option.some_inj.mp hrun
    exact Or.inl ⟨hr, by rw [hst]; exact hat⟩
  · have hrN : m % (N + 1) = N := by omega
    obtain ⟨t, hrun, hat⟩ := p2
    rw [hrN] at hrest
    have hst : s = t := Option.some_inj.mp (hrest.symm.trans hrun)
    exact Or.inr ⟨hrN, by rw [hst]; exact hat⟩

/-! ### Claim theorems -/

/-- C1 counterexample: a store whose Phase Record holds the undefined ordinal 5
is reported VALID by `backup_ram_is_valid` (the claim says the check reports
invalid), the warm-boot driver therefore leaves it untouched instead of
reinitializing to the first phase, and the next cycle raises on the state-table
lookup instead of running a defined phase. -/
theorem store_out_of_range_reported_valid :
    backup_ram_is_valid [(BACKUP_NAME_STATE, 5)] = true ∧
    ¬ definedPhase 5 ∧
    (warm_boot [(BACKUP_NAME_STATE, 5)] 10).ram = [(BACKUP_NAME_STATE, 5)] ∧
    run_one_cycle (warm_boot [(BACKUP_NAME_STATE, 5)] 10) = none := by
  refine ⟨rfl, by decide, rfl, rfl⟩

/-- C1 (amended): `backup_ram_is_valid` returns true iff the Phase Record key
is present, with no check that the value decodes to a defined phase ordinal; in
particular for every store in which the key exists — even with an out-of-range
value — the check reports valid and the warm-boot driver leaves the store
unchanged rather than reinitializing it. -/
theorem backup_ram_is_valid_presence_only (ram : BackupRam) (v lux_cycles : Nat)
    (hv : ram.get BACKUP_NAME_STATE = some v) :
    backup_ram_is_valid ram = true ∧
    (warm_boot ram lux_cycles).ram = ram := by
  constructor
  · simp [backup_ram_is_valid, hv]
  · simp [warm_boot, boot_ram, backup_ram_is_valid, hv]

/-- Witness for `backup_ram_is_valid_presence_only` at the out-of-range store
holding ordinal 5. -/
theorem backup_ram_is_valid_presence_only_witness :
    backup_ram_is_valid [(BACKUP_NAME_STATE, 5)] = true ∧
    (warm_boot [(BACKUP_NAME_STATE, 5)] 7).ram = [(BACKUP_NAME_STATE, 5)] :=
  backup_ram_is_valid_presence_only [(BACKUP_NAME_STATE, 5)] 5 7 rfl

/-- C8: on a cold boot the driver unconditionally runs `backup_ram_init`, which
resets the store — discarding any prior contents — and writes the first phase
ordinal under the Phase Record key; the result passes the code's validity check
(and also the stronger spec-level decode check). -/
theorem cold_boot_always_reinitializes (prior : BackupRam) :
    boot_ram true prior = backup_ram_init prior ∧
    backup_ram_init prior = [(BACKUP_NAME_STATE, LUX_SAMPLING)] ∧
    (backup_ram_init prior).get BACKUP_NAME_STATE = some LUX_SAMPLING ∧
    backup_ram_is_valid (backup_ram_init prior) = true ∧
    backup_ram_is_valid_specversion (backup_ram_init prior) = true := by
  exact ⟨rfl, rfl, rfl, rfl, rfl⟩

/-- C2: from any store whose Phase Record holds a defined phase ordinal, one
cycle (`entry()` then `exit()` of the current phase object) completes and
performs at most one backup-RAM write, and every write performed is to the
Phase Record key with a value in the defined phase set. -/
theorem run_one_cycle_write_discipline (s : Sys) (v : Nat)
    (hv : s.ram.get BACKUP_NAME_STATE = some v) (hdef : definedPhase v) :
    ∃ s' ws, run_one_cycle s = some (s', ws) ∧ ws.length ≤ 1 ∧
      ∀ p ∈ ws, p.1 = BACKUP_NAME_STATE ∧ definedPhase p.2 := by
  rcases hdef with h0 | h1
  · subst h0
    simp only [run_one_cycle, hv, LUX_SAMPLING, if_pos rfl, StateLux.exit]
    by_cases hz : (StateLux.entry s.lux).iteration = 0
    · rw [if_pos hz]
      exact ⟨_, _, rfl, by simp, by simp [definedPhase, ALL_SAMPLING]⟩
    · rw [if_neg hz]
      exact ⟨_, _, rfl, by simp, by simp⟩
  · subst h1
    refine ⟨{ ram := s.ram.set BACKUP_NAME_STATE LUX_SAMPLING, lux := s.lux },
        [(BACKUP_NAME_STATE, LUX_SAMPLING)], ?_, by simp, ?_⟩
    · simp [run_one_cycle, hv, StateAll.exit, LUX_SAMPLING, ALL_SAMPLING]
    · simp [definedPhase, LUX_SAMPLING, ALL_SAMPLING]

/-- Witness for `run_one_cycle_write_discipline` on the store left by a cold
boot with `lux_cycles = 3`. -/
theorem run_one_cycle_write_discipline_witness :
    ∃ s' ws, run_one_cycle (cold_boot 3) = some (s', ws) ∧ ws.length ≤ 1 ∧
      ∀ p ∈ ws, p.1 = BACKUP_NAME_STATE ∧ definedPhase p.2 :=
  run_one_cycle_write_discipline (cold_boot 3) LUX_SAMPLING rfl (Or.inl rfl)

/-- C3: starting from a cold boot with `lux_cycles = N > 0`, cycles 1..N
execute the narrow-sampling phase (ordinal 0), cycle N+1 executes the
broad-sampling phase (ordinal 1), cycle N+2 is narrow again with the countdown
restored to N, and in general the two phases round-robin: in every block of
N+1 cycles the first N are narrow and the last is broad. -/
theorem cold_boot_round_robin (N : Nat) (hN : 0 < N) :
    (∀ k, 1 ≤ k → k ≤ N →
      phase_of_cycle (cold_boot N) k = some LUX_SAMPLING) ∧
    phase_of_cycle (cold_boot N) (N + 1) = some ALL_SAMPLING ∧
    phase_of_cycle (cold_boot N) (N + 2) = some LUX_SAMPLING ∧
    (run_cycles (cold_boot N) (N + 1)).map (fun s => s.lux.iteration) = some N ∧
    (∀ j k, 1 ≤ k → k ≤ N →
      phase_of_cycle (cold_boot N) (j * (N + 1) + k) = some LUX_SAMPLING) ∧
    (∀ j, phase_of_cycle (cold_boot N) (j * (N + 1) + (N + 1)) =
      some ALL_SAMPLING) := by
  have hgen1 : ∀ j k, 1 ≤ k → k ≤ N →
      phase_of_cycle (cold_boot N) (j * (N + 1) + k) = some LUX_SAMPLING := by
    intro j k hk1 hkN
    obtain ⟨sj, hrunj, hatj⟩ := run_cycles_block_start hN j
    obtain ⟨p1, -, -⟩ := run_cycles_lux_block hN hatj
    obtain ⟨t, hrun, hat⟩ := p1 (k - 1) (by omega)
    unfold phase_of_cycle
    have hm : j * (N + 1) + k - 1 = j * (N + 1) + (k - 1) := by omega
    rw [hm, run_cycles_add, hrunj]
    simp [hrun, hat.1]
  have hgen2 : ∀ j, phase_of_cycle (cold_boot N) (j * (N + 1) + (N + 1)) =
      some ALL_SAMPLING := by
    intro j
    obtain ⟨sj, hrunj, hatj⟩ := run_cycles_block_start hN j
    obtain ⟨-, p2, -⟩ := run_cycles_lux_block hN hatj
    obtain ⟨t, hrun, hat⟩ := p2
    unfold phase_of_cycle
    have hm : j * (N + 1) + (N + 1) - 1 = j * (N + 1) + N := by omega
    rw [hm, run_cycles_add, hrunj]
    simp [hrun, hat.1]
  have hcount : (run_cycles (cold_boot N) (N + 1)).map
      (fun s => s.lux.iteration) = some N := by
    obtain ⟨s1, hrun1, hat1⟩ := run_cycles_block_start hN 1
    rw [one_mul] at hrun1
    rw [hrun1]
    simp [hat1.2.1]
  refine ⟨?_, ?_, ?_, hcount, hgen1, hgen2⟩
  · intro k hk1 hkN
    simpa using hgen1 0 k hk1 hkN
  · simpa using hgen2 0
  · have h12 := hgen1 1 1 le_rfl hN
    have hm : 1 * (N + 1) + 1 = N + 2 := by omega
    rwa [hm] at h12

/-- Witness for `cold_boot_round_robin` at `lux_cycles = 2`: cycles 1 and 2 are
narrow, cycle 3 broad, cycle 4 narrow again with the countdown back at 2. -/
theorem cold_boot_round_robin_witness :
    phase_of_cycle (cold_boot 2) 1 = some LUX_SAMPLING ∧
    phase_of_cycle (cold_boot 2) 2 = some LUX_SAMPLING ∧
    phase_of_cycle (cold_boot 2) 3 = some ALL_SAMPLING ∧
    phase_of_cycle (cold_boot 2) 4 = some LUX_SAMPLING ∧
    (run_cycles (cold_boot 2) 3).map (fun s => s.lux.iteration) = some 2 := by
  obtain ⟨h1, h2, h3, h4, -, -⟩ := cold_boot_round_robin 2 (by decide)
  exact ⟨h1 1 (by decide) (by decide), h1 2 (by decide) (by decide), h2, h3, h4⟩

/-- C6: if the machine reboots while the narrow-sampling countdown holds any
value k with 0 < k < N, the Phase Record still reads narrow-sampling, so after
a warm boot (the store is valid and kept) the first cycle executes
narrow-sampling, and the freshly constructed phase object's countdown is N, not
k. -/
theorem reboot_mid_countdown (N m : Nat) (hN : 0 < N) (s : Sys)
    (hrun : run_cycles (cold_boot N) m = some s)
    (hpos : 0 < s.lux.iteration) (hlt : s.lux.iteration < N) :
    (warm_boot s.ram N).ram.get BACKUP_NAME_STATE = some LUX_SAMPLING ∧
    (warm_boot s.ram N).lux.iteration = N ∧
    phase_of_cycle (warm_boot s.ram N) 1 = some LUX_SAMPLING := by
  rcases run_cycles_reachable hN m hrun with ⟨-, hat⟩ | ⟨-, hat⟩
  · have hget := hat.1
    have hvalid : backup_ram_is_valid s.ram = true := by
      simp [backup_ram_is_valid, hget]
    have hram : (warm_boot s.ram N).ram = s.ram := by
      simp [warm_boot, boot_ram, hvalid]
    refine ⟨by rw [hram]; exact hget, rfl, ?_⟩
    unfold phase_of_cycle
    simp [run_cycles, hram, hget]
  · exact absurd hat.2.1 (by omega)

/-- Witness for `reboot_mid_countdown`: reboot after 1 of 2 narrow cycles. -/
theorem reboot_mid_countdown_witness :
    (warm_boot [(BACKUP_NAME_STATE, LUX_SAMPLING)] 2).ram.get BACKUP_NAME_STATE
      = some LUX_SAMPLING ∧
    (warm_boot [(BACKUP_NAME_STATE, LUX_SAMPLING)] 2).lux.iteration = 2 ∧
    phase_of_cycle (warm_boot [(BACKUP_NAME_STATE, LUX_SAMPLING)] 2) 1
      = some LUX_SAMPLING :=
  reboot_mid_countdown 2 1 (by decide)
    { ram := [(BACKUP_NAME_STATE, LUX_SAMPLING)],
      lux := { total_iterations := 2, iteration := 1 } }
    (by decide) (by decide) (by decide)

lemma BackupList.append_all_eq : ∀ (es : List Nat) (b : LogBuffer),
    BackupList.append_all b es = b ++ es
  | [], b => by simp [BackupList.append_all]
  | e :: es, b => by
    simp only [BackupList.append_all, List.foldl_cons]
    have h := BackupList.append_all_eq es (BackupList.append b e)
    simp only [BackupList.append_all] at h
    rw [h, BackupList.append, List.append_assoc]
    rfl

/-- C4 counterexample: the entry 0 appended after the snapshot of the empty
buffer is taken but before `clear()` runs is wiped by `clear()`: the next
snapshot, taken over the post-clear buffer, does not contain it, so it does not
survive into the next snapshot as the claim requires. -/
theorem racing_entry_destroyed :
    (0 : Nat) ∉ BackupList.copy (flush_with_race [] 0).2 ∧
    (flush_with_race [] 0).2 = [] := by
  exact ⟨by decide, rfl⟩

/-- C4 (amended): an entry appended after the snapshot is taken but before
`clear()` runs never appears in the just-taken snapshot, but it does NOT
survive: `clear()` empties the whole buffer, so the entry is absent from the
next snapshot as well (the documented narrow race); entries appended after
`clear()` — e.g. logs generated during the publish — do survive into the next
snapshot. -/
theorem flush_race_semantics (b : LogBuffer) (ls : List Nat) (e : Nat)
    (hb : e ∉ b) (hls : e ∉ ls) :
    e ∉ (flush_with_race b e).1 ∧
    (flush_with_race b e).2 = [] ∧
    e ∉ BackupList.copy (BackupList.append_all (flush_with_race b e).2 ls) ∧
    (∀ x ∈ ls, x ∈ BackupList.copy (BackupList.append_all (flush_with_race b e).2 ls)) := by
  refine ⟨hb, rfl, ?_, ?_⟩ <;>
    simp [flush_with_race, BackupList.copy, BackupList.clear,
      BackupList.append_all_eq, hls]

/-- Witness for `flush_race_semantics`: buffer `[1]`, racing entry 0, one
post-clear entry 2. -/
theorem flush_race_semantics_witness :
    (0 : Nat) ∉ (flush_with_race [1] 0).1 ∧
    (flush_with_race [1] 0).2 = [] ∧
    (0 : Nat) ∉ BackupList.copy (BackupList.append_all (flush_with_race [1] 0).2 [2]) ∧
    (∀ x ∈ [2], x ∈ BackupList.copy (BackupList.append_all (flush_with_race [1] 0).2 [2])) :=
  flush_race_semantics [1] [2] 0 (by decide) (by decide)

/-- C5 counterexample: an intentional soft reset raised via `reset()` is caught
by the module-level handler of main.py like any other fault, and with the debug
flag set (as it is in config.py) the handler enters the blink loop — the claim
says this never happens for `reset()`. -/
theorem reset_request_blinks_in_debug :
    main_py true (reset_model "recovering") = some HandlerOutcome.blinkLoop := rfl

/-- C5 (amended): the top-level handler does not inspect the caught exception:
every fault that reaches it — the RuntimeError raised by `reset()` included —
takes the same branch, entering the blink loop iff the debug flag is set and
issuing a hard reset otherwise. -/
theorem top_level_handler_uniform (debug : Bool) (msg : String)
    (exc : TopLevelExc) :
    main_py debug (reset_model msg) = main_py debug (Except.error exc) ∧
    main_py true (Except.error exc) = some HandlerOutcome.blinkLoop ∧
    main_py false (Except.error exc) = some HandlerOutcome.hardReset := by
  exact ⟨rfl, rfl, rfl⟩

/-- C7 counterexample: a device read failure during `StateLux.entry` is not
caught there — `entry()` has no handler, so the fault leaves `entry()` instead
of being swallowed with the value omitted. -/
theorem entry_read_failure_propagates :
    StateLux.entry_result (Except.error ReadError.sensorFault) (StateLux.init 10)
      = Except.error ReadError.sensorFault := rfl

/-- C7 (amended): exactly the three battery-gauge readers are wrapped: they
catch `BatteryError`/`FuelGaugeError` and return None, so the value is omitted
and nothing propagates; a read failure surfacing inside a phase's `entry()`
itself propagates out of the phase, uncaught by any code in this repository. -/
theorem gauge_wrappers_catch (e : GaugeError) (v : Nat) :
    batt_volt_read (Except.error e) = none ∧
    batt_charge_read (Except.error e) = none ∧
    batt_time_left_read (Except.error e) = none ∧
    batt_volt_read (Except.ok v) = some v ∧
    batt_charge_read (Except.ok v) = some v ∧
    batt_time_left_read (Except.ok v) = some v ∧
    (∀ r l, StateLux.entry_result (Except.error r) l = Except.error r) ∧
    (∀ l, StateLux.entry_result (Except.ok ()) l = Except.ok (StateLux.entry l)) := by
  exact ⟨rfl, rfl, rfl, rfl, rfl, rfl, fun r l => rfl, fun l => rfl⟩

/-- C9: when the network scan fails with the distinguished `ScanError`, the
store is returned unchanged — "pc" and every other key keep their values — and
the block completes normally; only a successful scan writes the discovered
channel under "pc", and that write leaves every other key unchanged. -/
theorem scan_failure_leaves_store_unchanged (ram : BackupRam) (ch : Nat)
    (k : String) (hk : k ≠ "pc") :
    after_scan ram (Except.error ScanError.scanFailed) = ram ∧
    (after_scan ram (Except.error ScanError.scanFailed)).get "pc" = ram.get "pc" ∧
    (after_scan ram (Except.ok ch)).get "pc" = some ch ∧
    (after_scan ram (Except.ok ch)).get k = ram.get k := by
  exact ⟨rfl, rfl, BackupRam.get_set_same _ _ _, BackupRam.get_set_ne _ _ _ _ hk⟩

/-- Witness for `scan_failure_leaves_store_unchanged` on a store holding only
the Phase Record. -/
theorem scan_failure_leaves_store_unchanged_witness :
    after_scan [(BACKUP_NAME_STATE, 0)] (Except.error ScanError.scanFailed)
      = [(BACKUP_NAME_STATE, 0)] ∧
    (after_scan [(BACKUP_NAME_STATE, 0)] (Except.error ScanError.scanFailed)).get "pc"
      = BackupRam.get [(BACKUP_NAME_STATE, 0)] "pc" ∧
    (after_scan [(BACKUP_NAME_STATE, 0)] (Except.ok 6)).get "pc" = some 6 ∧
    (after_scan [(BACKUP_NAME_STATE, 0)] (Except.ok 6)).get BACKUP_NAME_STATE
      = BackupRam.get [(BACKUP_NAME_STATE, 0)] BACKUP_NAME_STATE :=
  scan_failure_leaves_store_unchanged [(BACKUP_NAME_STATE, 0)] 6
    BACKUP_NAME_STATE (by decide)

lemma appended_entries_cons_append (e : Nat) (ops : List LogOp) :
    appended_entries (LogOp.append e :: ops) = e :: appended_entries ops := by
  simp [appended_entries]

lemma appended_entries_cons_flush (ops : List LogOp) :
    appended_entries (LogOp.flush :: ops) = appended_entries ops := by
  simp [appended_entries]

lemma run_log_ops_snapshots_from_appends (ops : List LogOp) :
    ∀ (b s : LogBuffer) (x : Nat),
      s ∈ (run_log_ops b ops).2 → x ∈ s → x ∈ b ∨ x ∈ appended_entries ops := by
  induction ops with
  | nil => intro b s x hs _; simp [run_log_ops] at hs
  | cons op ops ih =>
    intro b s x hs hx
    cases op with
    | append e =>
      rcases ih (BackupList.append b e) s x (by simpa [run_log_ops] using hs) hx
        with hb | ha
      · rw [BackupList.append, List.mem_append] at hb
        rcases hb with hb | hb
        · exact Or.inl hb
        · simp only [List.mem_singleton] at hb
          subst hb
          exact Or.inr (by rw [appended_entries_cons_append]; exact List.mem_cons_self _ _)
      · exact Or.inr (by rw [appended_entries_cons_append]; exact List.mem_cons_of_mem _ ha)
    | flush =>
      simp only [run_log_ops, List.mem_cons] at hs
      rcases hs with hs | hs
      · subst hs
        exact Or.inl hx
      · rcases ih (BackupList.clear b) s x hs hx with hb | ha
        · simp [BackupList.clear] at hb
        · exact Or.inr (by rw [appended_entries_cons_flush]; exact ha)

/-- C10: with `log_to_buffer` enabled, module initialization clears the
persisted diagnostic buffer on every boot — before the main loop runs — so
every snapshot a flush hands to `publish_logs` holds only entries appended
after boot; a pre-boot entry that is not re-appended appears in no snapshot. -/
theorem boot_clears_persisted_logs (persisted : LogBuffer) (ops : List LogOp)
    (x : Nat) (hx : x ∉ appended_entries ops) :
    module_init_logs true persisted = [] ∧
    ∀ s ∈ (run_log_ops (module_init_logs true persisted) ops).2, x ∉ s := by
  refine ⟨rfl, ?_⟩
  intro s hs hxs
  rcases run_log_ops_snapshots_from_appends ops [] s x
      (by simpa [module_init_logs, BackupList.clear] using hs) hxs with h | h
  · simp at h
  · exact hx h

/-- Witness for `boot_clears_persisted_logs`: persisted entry 5, one post-boot
append of 3 followed by a flush. -/
theorem boot_clears_persisted_logs_witness :
    module_init_logs true [5] = [] ∧
    ∀ s ∈ (run_log_ops (module_init_logs true [5])
        [LogOp.append 3, LogOp.flush]).2, (5 : Nat) ∉ s :=
  boot_clears_persisted_logs [5] [LogOp.append 3, LogOp.flush] 5 (by decide)

end LightSensor
